import Mathlib

/-!
Verification of the custom-markup-language renderer (`src/main.rs`).

The program converts a tree of styled document nodes into a BBCode-like
markup string.  We embed the data model and the rendering operations
shallowly: each Rust struct becomes a Lean structure, each `to_bbcode`
implementation becomes a Lean function, the external resource loader and
structured decoder used by `Include<T>` become an explicit environment of
functions, and panics (`unwrap`, arithmetic underflow) become `Option` /
`Except` failures.
-/

/-- `TextStyle` from the source: an attribute bag with optional `color`,
optional `size` (a `usize`, embedded as `Nat`), and boolean `bold` and
`italic` flags. -/
structure TextStyle where
  color : Option String
  size : Option Nat
  bold : Bool
  italic : Bool
deriving DecidableEq, Repr

/-- `Default::default()` for `TextStyle`: all attributes absent / false. -/
def TextStyle.default : TextStyle :=
  ⟨none, none, false, false⟩

/-- `impl BitOr for TextStyle`: `rhs.color.or(self.color)`,
`rhs.size.or(self.size)`, `rhs.bold | self.bold`,
`rhs.italic | self.italic`.  The right-hand side is the override. -/
def TextStyle.bitor (self rhs : TextStyle) : TextStyle :=
  ⟨rhs.color.or self.color, rhs.size.or self.size,
   rhs.bold || self.bold, rhs.italic || self.italic⟩

/-- `Text` from the source: a content string together with a `TextStyle`
(tuple struct `Text(String, TextStyle)`). -/
structure Text where
  content : String
  style : TextStyle
deriving DecidableEq, Repr

/-- `Text::new`: content with the default style.  (The Rust function takes
any `T: ToString`; we embed the result of `to_string`.) -/
def Text.new (s : String) : Text :=
  ⟨s, TextStyle.default⟩

/-- `impl ToBBCode for Text`: start from the raw content, then wrap for
color, then size, then bold, then italic, each only when present/true. -/
def Text.to_bbcode (t : Text) : String :=
  let text := t.content
  let text :=
    match t.style.color with
    | some color => "[color=" ++ color ++ "]" ++ text ++ "[/color]"
    | none => text
  let text :=
    match t.style.size with
    | some size => "[size=" ++ toString size ++ "]" ++ text ++ "[/size]"
    | none => text
  let text := if t.style.bold then "[b]" ++ text ++ "[/b]" else text
  let text := if t.style.italic then "[i]" ++ text ++ "[/i]" else text
  text

/-- `KeyValue` from the source: two independently styled `Text` halves. -/
structure KeyValue where
  key : Text
  value : Text
deriving DecidableEq, Repr

/-- `KeyValue::new`: `":"` is appended to the key and a single leading
space is prepended to the value, both with default style.  (The Rust
function takes `T: ToString, U: ToString`; we embed the `to_string`
results.) -/
def KeyValue.new (k v : String) : KeyValue :=
  ⟨Text.new (k ++ ":"), Text.new (" " ++ v)⟩

/-- `KeyValue::style_key`: restyle the key half, keep its string. -/
def KeyValue.style_key (kv : KeyValue) (st : TextStyle) : KeyValue :=
  ⟨⟨kv.key.content, st⟩, kv.value⟩

/-- `KeyValue::style_value`: restyle the value half, keep its string. -/
def KeyValue.style_value (kv : KeyValue) (st : TextStyle) : KeyValue :=
  ⟨kv.key, ⟨kv.value.content, st⟩⟩

/-- `impl ToBBCode for KeyValue`: concatenation of the two rendered
halves, nothing in between. -/
def KeyValue.to_bbcode (kv : KeyValue) : String :=
  kv.key.to_bbcode ++ kv.value.to_bbcode

/-- The loop body shared by `List::to_bbcode` and `DoubleList::to_bbcode`:
`for _ in 0..count { out += &iter.next().unwrap(); out += sep; }`.
The iterator is embedded as the list of not-yet-consumed strings;
`iter.next().unwrap()` on an exhausted iterator is a panic, embedded as
`none`.  Returns the accumulator and the remaining iterator. -/
def joinLoop (sep : String) : Nat → String → List String →
    Option (String × List String)
  | 0, out, it => some (out, it)
  | n + 1, out, it =>
    match it with
    | [] => none
    | s :: it => joinLoop sep n (out ++ s ++ sep) it

/-- The join algorithm of `List::to_bbcode` / `DoubleList::to_bbcode`:
`let count = iter.len() - 1;` (a `usize` subtraction that panics when the
sequence is empty, embedded as `none`), then the separator loop, then one
final `out += &iter.next().unwrap()`. -/
def listJoin (sep : String) (strs : List String) : Option String := do
  let count ← if strs.length = 0 then none else some (strs.length - 1)
  let (out, it) ← joinLoop sep count "" strs
  match it with
  | [] => none
  | s :: _ => some (out ++ s)

/-- `impl ToBBCode for List<T>`: render every element (the Rust code maps
`ToBBCode::to_bbcode` over the elements), then join with `"\n"`. -/
def listToBBCode (f : α → String) (xs : List α) : Option String :=
  listJoin "\n" (xs.map f)

/-- `impl ToBBCode for DoubleList<T>`: like `List<T>` but the loop appends
the separator `"\n"` twice per element. -/
def doubleListToBBCode (f : α → String) (xs : List α) : Option String :=
  listJoin "\n\n" (xs.map f)

/-- Spec-side helper: apply a wrapping function only when a flag is set. -/
def applyIf (b : Bool) (f : String → String) (s : String) : String :=
  if b then f s else s

/-- Spec-side helper: apply a wrapping function only when an optional
attribute is present. -/
def applyOpt (o : Option α) (f : α → String → String) (s : String) : String :=
  match o with
  | some a => f a s
  | none => s

/-- Spec-side color wrap: `[color=c]...[/color]`. -/
def colorWrap (c : String) (s : String) : String :=
  "[color=" ++ c ++ "]" ++ s ++ "[/color]"

/-- Spec-side size wrap: `[size=n]...[/size]`. -/
def sizeWrap (n : Nat) (s : String) : String :=
  "[size=" ++ toString n ++ "]" ++ s ++ "[/size]"

/-- Spec-side bold wrap: `[b]...[/b]`. -/
def boldWrap (s : String) : String :=
  "[b]" ++ s ++ "[/b]"

/-- Spec-side italic wrap: `[i]...[/i]`. -/
def italicWrap (s : String) : String :=
  "[i]" ++ s ++ "[/i]"

/-- Spec-side join: children joined by the separator, no trailing
separator; defined only up to the non-empty case by the spec. -/
def sepJoin (sep : String) : List String → String
  | [] => ""
  | [x] => x
  | x :: y :: rest => x ++ sep ++ sepJoin sep (y :: rest)

/-- The closed set of renderable node kinds of the program, as a tree.
`text` is `Text`, `number` is `Number` (its `f32` value embedded as the
decimal string `self.0.to_string()` that the Rust code renders), `str` is
the `impl ToBBCode for String`, `list` / `doubleList` are `List<T>` /
`DoubleList<T>`, `image` is `Image`, `spoiler` is `Spoiler<T>`, and
`incl` is the deferred reference `Include<T>` holding a resource name. -/
inductive Node where
  | text (content : String) (style : TextStyle)
  | number (repr : String) (style : TextStyle)
  | str (s : String)
  | list (xs : List Node)
  | doubleList (xs : List Node)
  | image (url : String)
  | spoiler (inner : Node)
  | incl (name : String)
deriving Repr

/-- The external collaborators consumed by `Include<T>::to_bbcode`:
`load` is `std::fs::read_to_string` (resource name to file contents,
`none` for a missing/unreadable resource) and `decode` is
`ron::from_str` (file contents to a decoded node tree, `none` when the
bytes do not match the expected shape). -/
structure Env where
  load : String → Option String
  decode : String → Option Node

/-- The failure conditions of rendering: `resourceUnavailable` is the
`read_to_string(..).unwrap()` panic, `decodeError` the
`ron::from_str(..).unwrap()` panic (each remembers the resource name the
failing `Include` was loading), `emptySequence` the list-join panic on an
empty sequence, and `depthExceeded` is the fuel bound of the embedding
standing in for unbounded recursion through cyclic resources. -/
inductive RenderErr where
  | resourceUnavailable (name : String)
  | decodeError (name : String)
  | emptySequence
  | depthExceeded
deriving DecidableEq, Repr

/-- Render the elements of a list node left to right with the given
element renderer, stopping at the first failure (the Rust iterator
renders lazily, so a panic in element `k` means elements after `k` are
never rendered; `Except` propagation matches that first-failure
behavior). -/
def renderChildren (render : Node → Except RenderErr String) :
    List Node → Except RenderErr (List String)
  | [] => .ok []
  | x :: xs => do
    let s ← render x
    let rest ← renderChildren render xs
    .ok (s :: rest)

/-- The rendering operation `to_bbcode`, one case per node kind, embedded
with an explicit environment for the external load/decode collaborators
and fuel bounding the recursion depth (the source recursion is unbounded;
exhausted fuel stands in for the stack overflow a cyclic resource chain
would produce and is never hit on well-founded inputs). -/
def renderNode (env : Env) : Nat → Node → Except RenderErr String
  | 0, _ => .error .depthExceeded
  | fuel + 1, node =>
    match node with
    | .text content style => .ok (Text.to_bbcode ⟨content, style⟩)
    | .number repr style => .ok (Text.to_bbcode ⟨repr, style⟩)
    | .str s => .ok s
    | .list xs => do
      let rs ← renderChildren (renderNode env fuel) xs
      match listJoin "\n" rs with
      | some out => .ok out
      | none => .error .emptySequence
    | .doubleList xs => do
      let rs ← renderChildren (renderNode env fuel) xs
      match listJoin "\n\n" rs with
      | some out => .ok out
      | none => .error .emptySequence
    | .image url => .ok ("[img]" ++ url ++ "[/img]")
    | .spoiler inner => do
      let s ← renderNode env fuel inner
      .ok ("[spoiler]" ++ s ++ "[/spoiler]")
    | .incl name =>
      match env.load name with
      | none => .error (.resourceUnavailable name)
      | some bytes =>
        match env.decode bytes with
        | none => .error (.decodeError name)
        | some value => renderNode env fuel value

/-- A two-level resource environment: resource `"a"` holds bytes that
decode to a deferred reference to resource `"b"`, whose bytes decode to
an unstyled text node `"X"`. -/
def envNested : Env :=
  ⟨fun n => if n = "a" then some "RA" else if n = "b" then some "RB" else none,
   fun bs =>
     if bs = "RA" then some (.incl "b")
     else if bs = "RB" then some (.text "X" TextStyle.default) else none⟩

/-- An environment where no resource can be loaded. -/
def envUnavailable : Env :=
  ⟨fun _ => none, fun _ => none⟩

/-- The same resource contents as `envNested`, written with the branches
in a different order: pointwise equal to `envNested` but not
syntactically identical. -/
def envNestedCopy : Env :=
  ⟨fun n => if n = "b" then some "RB" else if n = "a" then some "RA" else none,
   fun bs =>
     if bs = "RB" then some (.text "X" TextStyle.default)
     else if bs = "RA" then some (.incl "b") else none⟩

/-- What the structured decoder can actually read off the wire.  The
`#[serde(skip)]` attribute on the `TextStyle` field of `Text` and of
`Number` means the decoder never reads a style from the input: the wire
shape of a `Text` is just its string and the wire shape of a `Number` is
just its numeric value (embedded as its decimal string). -/
inductive RawNode where
  | text (s : String)
  | number (repr : String)
  | str (s : String)
  | list (xs : List RawNode)
  | doubleList (xs : List RawNode)
  | image (url : String)
  | spoiler (x : RawNode)
  | incl (name : String)
deriving Repr

/-- Decoding a wire value into a node, modelled from the serde derives in
the source: a field marked `#[serde(skip)]` is not read from the input
and is filled with `Default::default()`, so every decoded `Text` and
`Number` carries `TextStyle::default()`. -/
def RawNode.toNode : RawNode → Node
  | .text s => .text s TextStyle.default
  | .number repr => .number repr TextStyle.default
  | .str s => .str s
  | .list xs => .list (xs.attach.map fun x => x.1.toNode)
  | .doubleList xs => .doubleList (xs.attach.map fun x => x.1.toNode)
  | .image url => .image url
  | .spoiler x => .spoiler x.toNode
  | .incl name => .incl name
decreasing_by
  all_goals simp_wf
  all_goals first
  | omega
  | (have hx := List.sizeOf_lt_of_mem x.2; omega)

/-- Every `Text` and `Number` node in the tree carries the default
(all-absent/false) style. -/
def Node.stylesDefault : Node → Bool
  | .text _ style => decide (style = TextStyle.default)
  | .number _ style => decide (style = TextStyle.default)
  | .str _ => true
  | .list xs => xs.attach.all fun x => x.1.stylesDefault
  | .doubleList xs => xs.attach.all fun x => x.1.stylesDefault
  | .image _ => true
  | .spoiler inner => inner.stylesDefault
  | .incl _ => true
decreasing_by
  all_goals simp_wf
  all_goals first
  | omega
  | (have hx := List.sizeOf_lt_of_mem x.2; omega)

lemma except_ok_bind {ε α β : Type} (a : α) (f : α → Except ε β) :
    (Except.ok a >>= f) = f a := rfl

lemma except_error_bind {ε α β : Type} (e : ε) (f : α → Except ε β) :
    (Except.error e >>= f : Except ε β) = Except.error e := rfl

lemma joinLoop_cons_spec (sep : String) :
    ∀ (xs : List String) (x out : String),
    ∃ acc last, joinLoop sep xs.length out (x :: xs) = some (acc, [last]) ∧
      acc ++ last = out ++ sepJoin sep (x :: xs) := by
  intro xs
  induction xs with
  | nil => intro x out; exact ⟨out, x, rfl, rfl⟩
  | cons y ys ih =>
    intro x out
    obtain ⟨acc, last, h1, h2⟩ := ih y (out ++ x ++ sep)
    refine ⟨acc, last, ?_, ?_⟩
    · simpa [joinLoop] using h1
    · rw [h2]
      simp [sepJoin, String.append_assoc]

lemma listJoin_cons (sep x : String) (xs : List String) :
    listJoin sep (x :: xs) = some (sepJoin sep (x :: xs)) := by
  obtain ⟨acc, last, h1, h2⟩ := joinLoop_cons_spec sep xs x ""
  simp [listJoin, h1]
  rw [h2, String.empty_append]

lemma listJoin_nil (sep : String) : listJoin sep [] = none := rfl

/-- **C1.** `render` of a `Text` node wraps the raw content successively
for each active style attribute, in the fixed nesting order (innermost to
outermost) color, size, bold, italic, each wrap applied only when the
attribute is present/true; in particular a bold italic `"X"` renders to
`"[i][b]X[/b][/i]"`. -/
theorem text_render_nesting_order :
    (∀ t : Text, t.to_bbcode =
      applyIf t.style.italic italicWrap
        (applyIf t.style.bold boldWrap
          (applyOpt t.style.size sizeWrap
            (applyOpt t.style.color colorWrap t.content)))) ∧
    Text.to_bbcode ⟨"X", ⟨none, none, true, true⟩⟩ = "[i][b]X[/b][/i]" := by
  constructor
  · intro t
    obtain ⟨content, c, sz, b, i⟩ := t
    cases c <;> cases sz <;> cases b <;> cases i <;>
      simp [Text.to_bbcode, applyIf, applyOpt, colorWrap, sizeWrap, boldWrap,
        italicWrap]
  · decide

/-- **C3.** Rendering a non-empty `List` joins the rendered children with
`"\n"` and rendering a non-empty `DoubleList` joins them with `"\n\n"`,
with no trailing separator; in particular a three-element list renders to
`render x1 ++ "\n" ++ render x2 ++ "\n" ++ render x3` and a two-element
spaced list to `render x1 ++ "\n\n" ++ render x2`. -/
theorem list_render_joins {α : Type} (f : α → String) :
    (∀ (x : α) (xs : List α),
      listToBBCode f (x :: xs) = some (sepJoin "\n" ((x :: xs).map f)) ∧
      doubleListToBBCode f (x :: xs) = some (sepJoin "\n\n" ((x :: xs).map f))) ∧
    (∀ a b c : α,
      listToBBCode f [a, b, c] = some (f a ++ "\n" ++ f b ++ "\n" ++ f c)) ∧
    (∀ a b : α, doubleListToBBCode f [a, b] = some (f a ++ "\n\n" ++ f b)) := by
  refine ⟨fun x xs => ⟨?_, ?_⟩, fun a b c => ?_, fun a b => ?_⟩
  · simpa [listToBBCode] using listJoin_cons "\n" (f x) (xs.map f)
  · simpa [doubleListToBBCode] using listJoin_cons "\n\n" (f x) (xs.map f)
  · rw [listToBBCode, List.map_cons, List.map_cons, List.map_cons, List.map_nil,
      listJoin_cons]
    simp [sepJoin, String.append_assoc]
  · rw [doubleListToBBCode, List.map_cons, List.map_cons, List.map_nil,
      listJoin_cons]
    simp [sepJoin, String.append_assoc]

/-- **C4.** Rendering a `List` or `DoubleList` with zero children fails
(the `iter.len() - 1` computation panics, embedded as `none`), and on any
non-empty sequence the join succeeds: every failing branch of the join
(the length-minus-one computation and the element unwraps) is
unreachable. -/
theorem empty_list_render_fails {α : Type} :
    (∀ f : α → String,
      listToBBCode f [] = none ∧ doubleListToBBCode f [] = none) ∧
    (∀ (f : α → String) (x : α) (xs : List α),
      (∃ s, listToBBCode f (x :: xs) = some s) ∧
      (∃ s, doubleListToBBCode f (x :: xs) = some s)) := by
  refine ⟨fun f => ⟨rfl, rfl⟩, fun f x xs =>
    ⟨⟨sepJoin "\n" ((x :: xs).map f), ?_⟩,
     ⟨sepJoin "\n\n" ((x :: xs).map f), ?_⟩⟩⟩
  · simpa [listToBBCode] using listJoin_cons "\n" (f x) (xs.map f)
  · simpa [doubleListToBBCode] using listJoin_cons "\n\n" (f x) (xs.map f)

/-- **C5.** The default `TextStyle` (color and size absent, bold and
italic false) is a left and a right identity of the merge operation. -/
theorem style_merge_default_identity (s : TextStyle) :
    TextStyle.bitor TextStyle.default s = s ∧
    TextStyle.bitor s TextStyle.default = s := by
  obtain ⟨c, sz, b, i⟩ := s
  constructor <;> simp [TextStyle.bitor, TextStyle.default]

/-- **C6.** Merge takes the override's `color`/`size` when present, else
the base's; `bold`/`italic` are the disjunction of the operands; merge is
associative but not commutative (the override side wins ties on the same
attribute). -/
theorem style_merge_semantics :
    (∀ base ov : TextStyle,
      (TextStyle.bitor base ov).color =
        (if ov.color.isSome then ov.color else base.color) ∧
      (TextStyle.bitor base ov).size =
        (if ov.size.isSome then ov.size else base.size) ∧
      (TextStyle.bitor base ov).bold = (base.bold || ov.bold) ∧
      (TextStyle.bitor base ov).italic = (base.italic || ov.italic)) ∧
    (∀ a b c : TextStyle,
      TextStyle.bitor a (TextStyle.bitor b c) =
        TextStyle.bitor (TextStyle.bitor a b) c) ∧
    (∃ a b : TextStyle, TextStyle.bitor a b ≠ TextStyle.bitor b a) := by
  refine ⟨fun base ov => ⟨?_, ?_, ?_, ?_⟩, fun a b c => ?_, ?_⟩
  · cases h : ov.color <;> simp [TextStyle.bitor, h, Option.or]
  · cases h : ov.size <;> simp [TextStyle.bitor, h, Option.or]
  · simp [TextStyle.bitor, Bool.or_comm]
  · simp [TextStyle.bitor, Bool.or_comm]
  · simp [TextStyle.bitor, Option.or_assoc, Bool.or_assoc]
  · exact ⟨⟨some "red", none, false, false⟩, ⟨some "blue", none, false, false⟩,
      by decide⟩

/-- **C7.** `KeyValue::new` bakes the separator into the two halves —
`":"` appended to the key, one leading space prepended to the value,
before any styling — and rendering is exactly the concatenation of the
two rendered halves with nothing inserted at render time; in particular
`KeyValue::new("Health", 50)` renders to `"Health: 50"` with no style
tags. -/
theorem keyValue_separator_baked (k v : String) :
    KeyValue.new k v =
      ⟨⟨k ++ ":", TextStyle.default⟩, ⟨" " ++ v, TextStyle.default⟩⟩ ∧
    (∀ kv : KeyValue, kv.to_bbcode = kv.key.to_bbcode ++ kv.value.to_bbcode) ∧
    (KeyValue.new "Health" (toString (50 : Nat))).to_bbcode = "Health: 50" :=
  ⟨rfl, fun _ => rfl, by decide⟩

/-- **C2.** A deferred reference contributes no markup of its own: when
its resource loads and decodes to a value `v`, rendering the reference
yields exactly the rendering of `v` (one more unit of fuel accounts for
the extra expansion step); and a reference decoding to a nested reference
resolves both levels — in the two-level environment `envNested`, resource
`"a"` (a reference to `"b"`, which holds the text `"X"`) renders to the
plain string `"X"` with no residual reference marker. -/
theorem deferredRef_transparent :
    (∀ (env : Env) (name bytes : String) (v : Node) (fuel : Nat) (s : String),
      env.load name = some bytes → env.decode bytes = some v →
      renderNode env fuel v = .ok s →
      renderNode env (fuel + 1) (.incl name) = .ok s) ∧
    renderNode envNested 3 (.incl "a") = .ok "X" := by
  constructor
  · intro env name bytes v fuel s h1 h2 h3
    simp [renderNode, h1, h2, h3]
  · rfl

/-- Witness for **C2** at a concrete input: in `envNested`, resource
`"b"` loads to bytes `"RB"` which decode to the text node `"X"`, so the
reference renders to `"X"`. -/
theorem deferredRef_transparent_witness :
    renderNode envNested 2 (.incl "b") = .ok "X" :=
  deferredRef_transparent.1 envNested "b" "RB" (.text "X" TextStyle.default)
    1 "X" rfl rfl rfl

/-- **C8.** A deferred reference whose resource cannot be loaded makes
the whole render fail with `resourceUnavailable` carrying the failing
resource name — no partial markup string is produced — and the failure
propagates unchanged out of enclosing nodes (a spoiler wrapper, a list
with an already-rendered sibling). -/
theorem resource_unavailable_aborts :
    ∀ (env : Env) (name : String) (fuel : Nat),
      env.load name = none →
      renderNode env (fuel + 1) (.incl name) =
        .error (.resourceUnavailable name) ∧
      renderNode env (fuel + 1 + 1) (.spoiler (.incl name)) =
        .error (.resourceUnavailable name) ∧
      renderNode env (fuel + 1 + 1)
          (.list [.text "t" TextStyle.default, .incl name]) =
        .error (.resourceUnavailable name) := by
  intro env name fuel h
  refine ⟨?_, ?_, ?_⟩
  · simp [renderNode, h]
  · simp [renderNode, h, except_error_bind]
  · simp [renderNode, renderChildren, h, except_ok_bind, except_error_bind]

/-- Witness for **C8** at a concrete input: in the environment where
nothing loads, rendering a reference to `"missing"` fails with
`resourceUnavailable "missing"`. -/
theorem resource_unavailable_aborts_witness :
    renderNode envUnavailable 1 (.incl "missing") =
      .error (.resourceUnavailable "missing") :=
  (resource_unavailable_aborts envUnavailable "missing" 0 rfl).1

/-- **C9.** Rendering is deterministic: two renders of an identical node
tree against environments with identical external-resource contents
(the same bytes from `load` for every name and the same decode result
for every byte string) produce identical results. -/
theorem render_deterministic :
    ∀ (env1 env2 : Env),
      (∀ name, env1.load name = env2.load name) →
      (∀ bytes, env1.decode bytes = env2.decode bytes) →
      ∀ (fuel : Nat) (t : Node),
        renderNode env1 fuel t = renderNode env2 fuel t := by
  intro env1 env2 hl hd
  obtain ⟨l1, d1⟩ := env1
  obtain ⟨l2, d2⟩ := env2
  have hle : l1 = l2 := funext hl
  have hde : d1 = d2 := funext hd
  subst hle
  subst hde
  intro fuel t
  rfl

/-- Witness for **C9** at a concrete input: `envNested` and its
syntactically different but pointwise-equal copy render the two-level
reference identically. -/
theorem render_deterministic_witness :
    renderNode envNested 3 (.incl "a") =
      renderNode envNestedCopy 3 (.incl "a") :=
  render_deterministic envNested envNestedCopy
    (by
      intro n
      by_cases h1 : n = "a" <;> by_cases h2 : n = "b" <;>
        simp [envNested, envNestedCopy, h1, h2])
    (by
      intro bs
      by_cases h1 : bs = "RA" <;> by_cases h2 : bs = "RB" <;>
        simp [envNested, envNestedCopy, h1, h2])
    3 (.incl "a")

/-- **C10.** Every `Text` or `Number` value obtained by decoding external
resource bytes carries the default style — the decoder's wire format has
no style fields, since they are marked skipped — so a decoded sub-document
holds no styled node of its own; and rendering a default-styled text adds
no tags at all, the output being exactly the raw content. -/
theorem decoded_styles_default :
    (∀ raw : RawNode, raw.toNode.stylesDefault = true) ∧
    (∀ s : String, Text.to_bbcode ⟨s, TextStyle.default⟩ = s) := by
  constructor
  · intro raw
    induction raw using RawNode.toNode.induct <;>
      simp_all [RawNode.toNode, Node.stylesDefault, TextStyle.default,
        List.all_eq_true, List.mem_map, List.mem_attach]
  · intro s
    rfl
